import Mathlib

/-!
Verification of the headless-image-crop constraint engine and drag state
machine.  JavaScript numbers are modelled as rationals (the algorithms use
only field and order operations, which are exact over ℚ).  Mutation of the
`_inner` rectangle in place is modelled by explicit state passing: every
method becomes a function from the engine state to a new engine state.
-/

/-- Axis-aligned rectangle value (source `Rect` / `DataRect`):
`{left, top, right, bottom}` with derived width/height. -/
structure DataRect where
  left : ℚ
  top : ℚ
  right : ℚ
  bottom : ℚ
deriving DecidableEq, Repr

/-- `width = right - left`. -/
def DataRect.width (r : DataRect) : ℚ := r.right - r.left

/-- `height = bottom - top`. -/
def DataRect.height (r : DataRect) : ℚ := r.bottom - r.top

/-- `clamp(min, max, value)` from `@callcc/toolkit-js/clamp`: the value
forced into the interval `[lo, hi]`.  All call sites in the engine have
`lo ≤ hi`, where the two usual implementations agree. -/
def clamp (lo hi x : ℚ) : ℚ := max lo (min hi x)

/-- JavaScript `Math.round`: round half toward positive infinity,
i.e. `⌊x + 1/2⌋` (written with the computable `Rat.floor`). -/
def jsRound (x : ℚ) : ℤ := Rat.floor (x + 1/2)

/-- The unit of an initial offset descriptor: `"px" | "%"`. -/
inductive CropUnit
  | px
  | percent
deriving DecidableEq, Repr

/-- The optional `offset` constructor argument of `ClampBox`/`NestedBox`:
`{left, top, width, height, unit?}`. -/
structure OffsetDesc where
  left : ℚ
  top : ℚ
  width : ℚ
  height : ℚ
  unit : Option CropUnit
deriving DecidableEq, Repr

/-- State of the constraint engine (source class `ClampBox`, and the
structurally identical `NestedBox`): an `_inner` rectangle nested in a
fixed `_outer` rectangle plus the stored `_minWidth`/`_minHeight`. -/
structure ClampBox where
  inner : DataRect
  outer : DataRect
  minWidth : ℚ
  minHeight : ℚ
deriving DecidableEq, Repr

/-- The `{inner, outer}` snapshot type (source `DataBox`, built from
clones, so a plain value pair here). -/
structure DataBox where
  inner : DataRect
  outer : DataRect
deriving DecidableEq, Repr

/-- `toDataBox()`: cloned `{inner, outer}` snapshot. -/
def ClampBox.toDataBox (b : ClampBox) : DataBox :=
  { inner := b.inner, outer := b.outer }

/-- `moveLeftLine(x)`:
`inner.left = clamp(outer.left, max(outer.left, inner.right - minWidth), x)`. -/
def ClampBox.moveLeftLine (b : ClampBox) (x : ℚ) : ClampBox :=
  { b with inner := { b.inner with
      left := clamp b.outer.left (max b.outer.left (b.inner.right - b.minWidth)) x } }

/-- `moveTopLine(y)`:
`inner.top = clamp(outer.top, max(outer.top, inner.bottom - minHeight), y)`. -/
def ClampBox.moveTopLine (b : ClampBox) (y : ℚ) : ClampBox :=
  { b with inner := { b.inner with
      top := clamp b.outer.top (max b.outer.top (b.inner.bottom - b.minHeight)) y } }

/-- `moveRightLine(x)`:
`inner.right = clamp(min(outer.right, inner.left + minWidth), outer.right, x)`. -/
def ClampBox.moveRightLine (b : ClampBox) (x : ℚ) : ClampBox :=
  { b with inner := { b.inner with
      right := clamp (min b.outer.right (b.inner.left + b.minWidth)) b.outer.right x } }

/-- `moveBottomLine(y)`:
`inner.bottom = clamp(min(outer.bottom, inner.top + minHeight), outer.bottom, y)`. -/
def ClampBox.moveBottomLine (b : ClampBox) (y : ℚ) : ClampBox :=
  { b with inner := { b.inner with
      bottom := clamp (min b.outer.bottom (b.inner.top + b.minHeight)) b.outer.bottom y } }

/-- The clamped horizontal delta computed at the top of `moveX`:
`dx` capped against the remaining slack on the side it moves toward. -/
def ClampBox.clampDX (b : ClampBox) (dx : ℚ) : ℚ :=
  if 0 < dx then min dx (b.outer.right - b.inner.right)
  else if dx < 0 then max dx (b.outer.left - b.inner.left)
  else dx

/-- `moveX(dx)`: clamp the delta, then (when it is non-zero — the source
guards with JavaScript truthiness `if (dx)`) shift both vertical edges. -/
def ClampBox.moveX (b : ClampBox) (dx : ℚ) : ClampBox :=
  let d := b.clampDX dx
  if d = 0 then b
  else { b with inner := { b.inner with
      left := b.inner.left + d, right := b.inner.right + d } }

/-- The clamped vertical delta computed at the top of `moveY`. -/
def ClampBox.clampDY (b : ClampBox) (dy : ℚ) : ℚ :=
  if 0 < dy then min dy (b.outer.bottom - b.inner.bottom)
  else if dy < 0 then max dy (b.outer.top - b.inner.top)
  else dy

/-- `moveY(dy)`: vertical analogue of `moveX`. -/
def ClampBox.moveY (b : ClampBox) (dy : ℚ) : ClampBox :=
  let d := b.clampDY dy
  if d = 0 then b
  else { b with inner := { b.inner with
      top := b.inner.top + d, bottom := b.inner.bottom + d } }

/-- Resolution of one offset-descriptor component against a reference
length: percentages are resolved and rounded to the nearest integer,
pixel (or absent-unit) values pass through. -/
def resolveOffsetPart (unit : Option CropUnit) (v reference : ℚ) : ℚ :=
  if unit = some CropUnit.percent then ((jsRound (v / 100 * reference) : ℤ) : ℚ)
  else v

/-- The `ClampBox` constructor: `inner` and `outer` both start as the given
bounds, the minimum sizes are clamped into `[0, width]`/`[0, height]`, and
an optional offset descriptor is applied as the four ordered edge moves
left, top, right, bottom (right/bottom relative to the already-moved
left/top edges). -/
def ClampBox.create (left top right bottom : ℚ) (minWidth minHeight : ℚ)
    (offset : Option OffsetDesc) : ClampBox :=
  let base : ClampBox :=
    { inner := ⟨left, top, right, bottom⟩
      outer := ⟨left, top, right, bottom⟩
      minWidth := clamp 0 (right - left) minWidth
      minHeight := clamp 0 (bottom - top) minHeight }
  match offset with
  | none => base
  | some o =>
    let ml := resolveOffsetPart o.unit o.left base.outer.width
    let mt := resolveOffsetPart o.unit o.top base.outer.height
    let w := resolveOffsetPart o.unit o.width base.outer.width
    let h := resolveOffsetPart o.unit o.height base.outer.height
    let b1 := base.moveLeftLine (base.outer.left + ml)
    let b2 := b1.moveTopLine (b1.outer.top + mt)
    let b3 := b2.moveRightLine (b2.inner.left + w)
    b3.moveBottomLine (b3.inner.top + h)

/-- The `NestedBox` constructor (source `NestedBox`): identical to
`ClampBox.create` except that the supplied minimum sizes are stored
unclamped.  The move methods of `NestedBox` are textually identical to
those of `ClampBox`, so its states share the `ClampBox` state type. -/
def NestedBox.create (left top right bottom : ℚ) (minWidth minHeight : ℚ)
    (offset : Option OffsetDesc) : ClampBox :=
  let base : ClampBox :=
    { inner := ⟨left, top, right, bottom⟩
      outer := ⟨left, top, right, bottom⟩
      minWidth := minWidth
      minHeight := minHeight }
  match offset with
  | none => base
  | some o =>
    let ml := resolveOffsetPart o.unit o.left base.outer.width
    let mt := resolveOffsetPart o.unit o.top base.outer.height
    let w := resolveOffsetPart o.unit o.width base.outer.width
    let h := resolveOffsetPart o.unit o.height base.outer.height
    let b1 := base.moveLeftLine (base.outer.left + ml)
    let b2 := b1.moveTopLine (b1.outer.top + mt)
    let b3 := b2.moveRightLine (b2.inner.left + w)
    b3.moveBottomLine (b3.inner.top + h)

/-- One public mutator call on the constraint engine. -/
inductive BoxOp
  | moveLeftLine (x : ℚ)
  | moveTopLine (y : ℚ)
  | moveRightLine (x : ℚ)
  | moveBottomLine (y : ℚ)
  | moveX (dx : ℚ)
  | moveY (dy : ℚ)
deriving DecidableEq, Repr

/-- Dispatch one mutator call. -/
def ClampBox.applyOp (b : ClampBox) : BoxOp → ClampBox
  | .moveLeftLine x => b.moveLeftLine x
  | .moveTopLine y => b.moveTopLine y
  | .moveRightLine x => b.moveRightLine x
  | .moveBottomLine y => b.moveBottomLine y
  | .moveX dx => b.moveX dx
  | .moveY dy => b.moveY dy

/-- Apply a finite sequence of mutator calls, first to last. -/
def ClampBox.applyOps (b : ClampBox) (ops : List BoxOp) : ClampBox :=
  ops.foldl ClampBox.applyOp b

/-- The containment property the spec states:
`outer.left ≤ inner.left ≤ inner.right ≤ outer.right` and
`outer.top ≤ inner.top ≤ inner.bottom ≤ outer.bottom`. -/
def ClampBox.Contained (b : ClampBox) : Prop :=
  b.outer.left ≤ b.inner.left ∧ b.inner.left ≤ b.inner.right ∧
  b.inner.right ≤ b.outer.right ∧
  b.outer.top ≤ b.inner.top ∧ b.inner.top ≤ b.inner.bottom ∧
  b.inner.bottom ≤ b.outer.bottom

/-- The inductive invariant of the engine: containment plus non-negative
stored minimums that bound the inner dimensions from below. -/
def ClampBox.Inv (b : ClampBox) : Prop :=
  b.Contained ∧ 0 ≤ b.minWidth ∧ 0 ≤ b.minHeight ∧
  b.minWidth ≤ b.inner.width ∧ b.minHeight ≤ b.inner.height

lemma le_clamp (lo hi x : ℚ) : lo ≤ clamp lo hi x := le_max_left _ _

lemma clamp_le (lo hi x : ℚ) (h : lo ≤ hi) : clamp lo hi x ≤ hi :=
  max_le h (min_le_left _ _)

lemma clamp_of_mem (lo hi x : ℚ) (h1 : lo ≤ x) (h2 : x ≤ hi) : clamp lo hi x = x := by
  unfold clamp
  rw [min_eq_right h2, max_eq_right h1]

lemma inv_moveLeftLine (b : ClampBox) (x : ℚ) (h : b.Inv) : (b.moveLeftLine x).Inv := by
  obtain ⟨⟨h1, h2, h3, h4, h5, h6⟩, hmw, hmh, hw, hh⟩ := h
  simp only [DataRect.width, DataRect.height] at hw hh
  have key : b.outer.left ≤ b.inner.right - b.minWidth := by linarith
  have hub : max b.outer.left (b.inner.right - b.minWidth) = b.inner.right - b.minWidth :=
    max_eq_right key
  have hlow := le_clamp b.outer.left (max b.outer.left (b.inner.right - b.minWidth)) x
  have hhigh : clamp b.outer.left (max b.outer.left (b.inner.right - b.minWidth)) x ≤
      b.inner.right - b.minWidth := by
    rw [hub]; exact clamp_le _ _ _ key
  simp only [ClampBox.Inv, ClampBox.Contained, ClampBox.moveLeftLine, DataRect.width,
    DataRect.height]
  exact ⟨⟨hlow, by linarith, h3, h4, h5, h6⟩, hmw, hmh, by linarith, hh⟩

lemma inv_moveTopLine (b : ClampBox) (y : ℚ) (h : b.Inv) : (b.moveTopLine y).Inv := by
  obtain ⟨⟨h1, h2, h3, h4, h5, h6⟩, hmw, hmh, hw, hh⟩ := h
  simp only [DataRect.width, DataRect.height] at hw hh
  have key : b.outer.top ≤ b.inner.bottom - b.minHeight := by linarith
  have hub : max b.outer.top (b.inner.bottom - b.minHeight) = b.inner.bottom - b.minHeight :=
    max_eq_right key
  have hlow := le_clamp b.outer.top (max b.outer.top (b.inner.bottom - b.minHeight)) y
  have hhigh : clamp b.outer.top (max b.outer.top (b.inner.bottom - b.minHeight)) y ≤
      b.inner.bottom - b.minHeight := by
    rw [hub]; exact clamp_le _ _ _ key
  simp only [ClampBox.Inv, ClampBox.Contained, ClampBox.moveTopLine, DataRect.width,
    DataRect.height]
  exact ⟨⟨h1, h2, h3, hlow, by linarith, h6⟩, hmw, hmh, hw, by linarith⟩

lemma inv_moveRightLine (b : ClampBox) (x : ℚ) (h : b.Inv) : (b.moveRightLine x).Inv := by
  obtain ⟨⟨h1, h2, h3, h4, h5, h6⟩, hmw, hmh, hw, hh⟩ := h
  simp only [DataRect.width, DataRect.height] at hw hh
  have key : b.inner.left + b.minWidth ≤ b.outer.right := by linarith
  have hlb : min b.outer.right (b.inner.left + b.minWidth) = b.inner.left + b.minWidth :=
    min_eq_right key
  have hlow := le_clamp (min b.outer.right (b.inner.left + b.minWidth)) b.outer.right x
  have hhigh : clamp (min b.outer.right (b.inner.left + b.minWidth)) b.outer.right x ≤
      b.outer.right := clamp_le _ _ _ (min_le_left _ _)
  simp only [ClampBox.Inv, ClampBox.Contained, ClampBox.moveRightLine, DataRect.width,
    DataRect.height]
  exact ⟨⟨h1, by linarith, hhigh, h4, h5, h6⟩, hmw, hmh, by linarith, hh⟩

lemma inv_moveBottomLine (b : ClampBox) (y : ℚ) (h : b.Inv) : (b.moveBottomLine y).Inv := by
  obtain ⟨⟨h1, h2, h3, h4, h5, h6⟩, hmw, hmh, hw, hh⟩ := h
  simp only [DataRect.width, DataRect.height] at hw hh
  have key : b.inner.top + b.minHeight ≤ b.outer.bottom := by linarith
  have hlb : min b.outer.bottom (b.inner.top + b.minHeight) = b.inner.top + b.minHeight :=
    min_eq_right key
  have hlow := le_clamp (min b.outer.bottom (b.inner.top + b.minHeight)) b.outer.bottom y
  have hhigh : clamp (min b.outer.bottom (b.inner.top + b.minHeight)) b.outer.bottom y ≤
      b.outer.bottom := clamp_le _ _ _ (min_le_left _ _)
  simp only [ClampBox.Inv, ClampBox.Contained, ClampBox.moveBottomLine, DataRect.width,
    DataRect.height]
  exact ⟨⟨h1, h2, h3, h4, by linarith, hhigh⟩, hmw, hmh, hw, by linarith⟩

lemma clampDX_bounds (b : ClampBox) (dx : ℚ) (h1 : b.outer.left ≤ b.inner.left)
    (h2 : b.inner.right ≤ b.outer.right) :
    b.outer.left ≤ b.inner.left + b.clampDX dx ∧
    b.inner.right + b.clampDX dx ≤ b.outer.right := by
  unfold ClampBox.clampDX
  split_ifs with hpos hneg
  · have ha : 0 ≤ min dx (b.outer.right - b.inner.right) :=
      le_min (le_of_lt hpos) (by linarith)
    have hb := min_le_right dx (b.outer.right - b.inner.right)
    constructor <;> linarith
  · have ha := le_max_right dx (b.outer.left - b.inner.left)
    have hb : max dx (b.outer.left - b.inner.left) ≤ 0 :=
      max_le (le_of_lt hneg) (by linarith)
    constructor <;> linarith
  · constructor <;> linarith

lemma clampDY_bounds (b : ClampBox) (dy : ℚ) (h1 : b.outer.top ≤ b.inner.top)
    (h2 : b.inner.bottom ≤ b.outer.bottom) :
    b.outer.top ≤ b.inner.top + b.clampDY dy ∧
    b.inner.bottom + b.clampDY dy ≤ b.outer.bottom := by
  unfold ClampBox.clampDY
  split_ifs with hpos hneg
  · have ha : 0 ≤ min dy (b.outer.bottom - b.inner.bottom) :=
      le_min (le_of_lt hpos) (by linarith)
    have hb := min_le_right dy (b.outer.bottom - b.inner.bottom)
    constructor <;> linarith
  · have ha := le_max_right dy (b.outer.top - b.inner.top)
    have hb : max dy (b.outer.top - b.inner.top) ≤ 0 :=
      max_le (le_of_lt hneg) (by linarith)
    constructor <;> linarith
  · constructor <;> linarith

lemma inv_moveX (b : ClampBox) (dx : ℚ) (h : b.Inv) : (b.moveX dx).Inv := by
  obtain ⟨⟨h1, h2, h3, h4, h5, h6⟩, hmw, hmh, hw, hh⟩ := h
  simp only [DataRect.width, DataRect.height] at hw hh
  obtain ⟨hb1, hb2⟩ := clampDX_bounds b dx h1 h3
  simp only [ClampBox.moveX]
  split
  · exact ⟨⟨h1, h2, h3, h4, h5, h6⟩, hmw, hmh, by
      simp only [DataRect.width]; linarith, by simp only [DataRect.height]; linarith⟩
  · simp only [ClampBox.Inv, ClampBox.Contained, DataRect.width, DataRect.height]
    refine ⟨⟨?_, ?_, ?_, ?_, ?_, ?_⟩, hmw, hmh, ?_, ?_⟩ <;> linarith

lemma inv_moveY (b : ClampBox) (dy : ℚ) (h : b.Inv) : (b.moveY dy).Inv := by
  obtain ⟨⟨h1, h2, h3, h4, h5, h6⟩, hmw, hmh, hw, hh⟩ := h
  simp only [DataRect.width, DataRect.height] at hw hh
  obtain ⟨hb1, hb2⟩ := clampDY_bounds b dy h4 h6
  simp only [ClampBox.moveY]
  split
  · exact ⟨⟨h1, h2, h3, h4, h5, h6⟩, hmw, hmh, by
      simp only [DataRect.width]; linarith, by simp only [DataRect.height]; linarith⟩
  · simp only [ClampBox.Inv, ClampBox.Contained, DataRect.width, DataRect.height]
    refine ⟨⟨?_, ?_, ?_, ?_, ?_, ?_⟩, hmw, hmh, ?_, ?_⟩ <;> linarith

lemma inv_applyOp (b : ClampBox) (op : BoxOp) (h : b.Inv) : (b.applyOp op).Inv := by
  cases op with
  | moveLeftLine x => exact inv_moveLeftLine b x h
  | moveTopLine y => exact inv_moveTopLine b y h
  | moveRightLine x => exact inv_moveRightLine b x h
  | moveBottomLine y => exact inv_moveBottomLine b y h
  | moveX dx => exact inv_moveX b dx h
  | moveY dy => exact inv_moveY b dy h

lemma inv_applyOps (b : ClampBox) (ops : List BoxOp) (h : b.Inv) : (b.applyOps ops).Inv := by
  induction ops generalizing b with
  | nil => exact h
  | cons op rest ih => exact ih (b.applyOp op) (inv_applyOp b op h)

lemma inv_create (l t r bt mw mh : ℚ) (off : Option OffsetDesc)
    (hlr : l ≤ r) (htb : t ≤ bt) :
    (ClampBox.create l t r bt mw mh off).Inv := by
  have base_inv : (⟨⟨l, t, r, bt⟩, ⟨l, t, r, bt⟩, clamp 0 (r - l) mw,
      clamp 0 (bt - t) mh⟩ : ClampBox).Inv := by
    refine ⟨⟨le_refl _, hlr, le_refl _, le_refl _, htb, le_refl _⟩,
      le_clamp _ _ _, le_clamp _ _ _, ?_, ?_⟩
    · simpa [DataRect.width] using clamp_le 0 (r - l) mw (by linarith)
    · simpa [DataRect.height] using clamp_le 0 (bt - t) mh (by linarith)
  cases off with
  | none => exact base_inv
  | some o =>
    exact inv_moveBottomLine _ _ (inv_moveRightLine _ _ (inv_moveTopLine _ _
      (inv_moveLeftLine _ _ base_inv)))

lemma moveLeftLine_outer (b : ClampBox) (x : ℚ) : (b.moveLeftLine x).outer = b.outer := rfl

lemma moveX_outer (b : ClampBox) (dx : ℚ) : (b.moveX dx).outer = b.outer := by
  simp only [ClampBox.moveX]; split <;> rfl

lemma moveY_outer (b : ClampBox) (dy : ℚ) : (b.moveY dy).outer = b.outer := by
  simp only [ClampBox.moveY]; split <;> rfl

lemma applyOp_outer (b : ClampBox) (op : BoxOp) : (b.applyOp op).outer = b.outer := by
  cases op with
  | moveX dx => exact moveX_outer b dx
  | moveY dy => exact moveY_outer b dy
  | _ => rfl

lemma applyOps_outer (b : ClampBox) (ops : List BoxOp) : (b.applyOps ops).outer = b.outer := by
  induction ops generalizing b with
  | nil => rfl
  | cons op rest ih => exact (ih (b.applyOp op)).trans (applyOp_outer b op)

lemma moveX_minWidth (b : ClampBox) (dx : ℚ) : (b.moveX dx).minWidth = b.minWidth := by
  simp only [ClampBox.moveX]; split <;> rfl

lemma moveY_minWidth (b : ClampBox) (dy : ℚ) : (b.moveY dy).minWidth = b.minWidth := by
  simp only [ClampBox.moveY]; split <;> rfl

lemma applyOp_minWidth (b : ClampBox) (op : BoxOp) : (b.applyOp op).minWidth = b.minWidth := by
  cases op with
  | moveX dx => exact moveX_minWidth b dx
  | moveY dy => exact moveY_minWidth b dy
  | _ => rfl

lemma moveX_minHeight (b : ClampBox) (dx : ℚ) : (b.moveX dx).minHeight = b.minHeight := by
  simp only [ClampBox.moveX]; split <;> rfl

lemma moveY_minHeight (b : ClampBox) (dy : ℚ) : (b.moveY dy).minHeight = b.minHeight := by
  simp only [ClampBox.moveY]; split <;> rfl

lemma applyOp_minHeight (b : ClampBox) (op : BoxOp) : (b.applyOp op).minHeight = b.minHeight := by
  cases op with
  | moveX dx => exact moveX_minHeight b dx
  | moveY dy => exact moveY_minHeight b dy
  | _ => rfl

lemma applyOps_minWidth (b : ClampBox) (ops : List BoxOp) :
    (b.applyOps ops).minWidth = b.minWidth := by
  induction ops generalizing b with
  | nil => rfl
  | cons op rest ih => exact (ih (b.applyOp op)).trans (applyOp_minWidth b op)

lemma applyOps_minHeight (b : ClampBox) (ops : List BoxOp) :
    (b.applyOps ops).minHeight = b.minHeight := by
  induction ops generalizing b with
  | nil => rfl
  | cons op rest ih => exact (ih (b.applyOp op)).trans (applyOp_minHeight b op)

lemma create_outer (l t r bt mw mh : ℚ) (off : Option OffsetDesc) :
    (ClampBox.create l t r bt mw mh off).outer = ⟨l, t, r, bt⟩ := by
  cases off <;> rfl

lemma create_minWidth (l t r bt mw mh : ℚ) (off : Option OffsetDesc) :
    (ClampBox.create l t r bt mw mh off).minWidth = clamp 0 (r - l) mw := by
  cases off <;> rfl

lemma create_minHeight (l t r bt mw mh : ℚ) (off : Option OffsetDesc) :
    (ClampBox.create l t r bt mw mh off).minHeight = clamp 0 (bt - t) mh := by
  cases off <;> rfl

lemma min_le_clamp_zero (a b : ℚ) : min a b ≤ clamp 0 b a := by
  unfold clamp
  exact le_trans (le_of_eq (min_comm a b)) (le_max_right _ _)

/-- C1: for every engine constructed from outer bounds (with `left ≤ right`,
`top ≤ bottom`), any minimum sizes, any optional offset descriptor, and
every finite sequence of `moveLeftLine`/`moveTopLine`/`moveRightLine`/
`moveBottomLine`/`moveX`/`moveY` calls, the state satisfies
`outer.left ≤ inner.left ≤ inner.right ≤ outer.right` and
`outer.top ≤ inner.top ≤ inner.bottom ≤ outer.bottom`. -/
theorem containment_invariant (l t r bt mw mh : ℚ) (off : Option OffsetDesc)
    (ops : List BoxOp) (hlr : l ≤ r) (htb : t ≤ bt) :
    ((ClampBox.create l t r bt mw mh off).applyOps ops).Contained :=
  (inv_applyOps _ ops (inv_create l t r bt mw mh off hlr htb)).1

theorem containment_invariant_witness :
    (0 : ℚ) ≤ 100 ∧ (0 : ℚ) ≤ 80 ∧
    ((ClampBox.create 0 0 100 80 10 10 none).applyOps
      [BoxOp.moveLeftLine 95, BoxOp.moveX (-30), BoxOp.moveBottomLine 200]).Contained :=
  ⟨by simp, by simp,
    containment_invariant 0 0 100 80 10 10 none
      [BoxOp.moveLeftLine 95, BoxOp.moveX (-30), BoxOp.moveBottomLine 200]
      (by simp) (by simp)⟩

/-- C2: in every state reachable from construction by edge moves and
translations, `inner.width ≥ min(minWidth, outer.width)` and
`inner.height ≥ min(minHeight, outer.height)`, with `minWidth`/`minHeight`
the values supplied at construction. -/
theorem minimum_size_invariant (l t r bt mw mh : ℚ) (off : Option OffsetDesc)
    (ops : List BoxOp) (hlr : l ≤ r) (htb : t ≤ bt) :
    min mw ((ClampBox.create l t r bt mw mh off).applyOps ops).outer.width ≤
      ((ClampBox.create l t r bt mw mh off).applyOps ops).inner.width ∧
    min mh ((ClampBox.create l t r bt mw mh off).applyOps ops).outer.height ≤
      ((ClampBox.create l t r bt mw mh off).applyOps ops).inner.height := by
  obtain ⟨_, _, _, hw, hh⟩ := inv_applyOps _ ops (inv_create l t r bt mw mh off hlr htb)
  have hmw := (applyOps_minWidth (ClampBox.create l t r bt mw mh off) ops).trans
    (create_minWidth l t r bt mw mh off)
  have hmh := (applyOps_minHeight (ClampBox.create l t r bt mw mh off) ops).trans
    (create_minHeight l t r bt mw mh off)
  have ho := (applyOps_outer (ClampBox.create l t r bt mw mh off) ops).trans
    (create_outer l t r bt mw mh off)
  rw [hmw] at hw
  rw [hmh] at hh
  rw [ho]
  constructor
  · exact le_trans (by simpa [DataRect.width] using min_le_clamp_zero mw (r - l)) hw
  · exact le_trans (by simpa [DataRect.height] using min_le_clamp_zero mh (bt - t)) hh

theorem minimum_size_invariant_witness :
    (0 : ℚ) ≤ 100 ∧ (0 : ℚ) ≤ 80 ∧
    (min 10 ((ClampBox.create 0 0 100 80 10 10 none).applyOps
        [BoxOp.moveLeftLine 95]).outer.width ≤
      ((ClampBox.create 0 0 100 80 10 10 none).applyOps
        [BoxOp.moveLeftLine 95]).inner.width ∧
    min 10 ((ClampBox.create 0 0 100 80 10 10 none).applyOps
        [BoxOp.moveLeftLine 95]).outer.height ≤
      ((ClampBox.create 0 0 100 80 10 10 none).applyOps
        [BoxOp.moveLeftLine 95]).inner.height) :=
  ⟨by simp, by simp,
    minimum_size_invariant 0 0 100 80 10 10 none [BoxOp.moveLeftLine 95] (by simp) (by simp)⟩

/-- C3: at construction the stored minimum sizes are the supplied values
clamped into `[0, outer.width]` and `[0, outer.height]`, so a stored
minimum never exceeds the outer box's own dimensions. -/
theorem construction_minimums_clamped (l t r bt mw mh : ℚ) (off : Option OffsetDesc)
    (hlr : l ≤ r) (htb : t ≤ bt) :
    (ClampBox.create l t r bt mw mh off).minWidth =
      clamp 0 (ClampBox.create l t r bt mw mh off).outer.width mw ∧
    (ClampBox.create l t r bt mw mh off).minHeight =
      clamp 0 (ClampBox.create l t r bt mw mh off).outer.height mh ∧
    (ClampBox.create l t r bt mw mh off).minWidth ≤
      (ClampBox.create l t r bt mw mh off).outer.width ∧
    (ClampBox.create l t r bt mw mh off).minHeight ≤
      (ClampBox.create l t r bt mw mh off).outer.height := by
  rw [create_minWidth, create_minHeight, create_outer]
  simp only [DataRect.width, DataRect.height]
  exact ⟨trivial, trivial, clamp_le _ _ _ (by linarith), clamp_le _ _ _ (by linarith)⟩

theorem construction_minimums_clamped_witness :
    (0 : ℚ) ≤ 100 ∧ (0 : ℚ) ≤ 80 ∧
    ((ClampBox.create 0 0 100 80 500 (-3) none).minWidth =
      clamp 0 (ClampBox.create 0 0 100 80 500 (-3) none).outer.width 500 ∧
    (ClampBox.create 0 0 100 80 500 (-3) none).minHeight =
      clamp 0 (ClampBox.create 0 0 100 80 500 (-3) none).outer.height (-3) ∧
    (ClampBox.create 0 0 100 80 500 (-3) none).minWidth ≤
      (ClampBox.create 0 0 100 80 500 (-3) none).outer.width ∧
    (ClampBox.create 0 0 100 80 500 (-3) none).minHeight ≤
      (ClampBox.create 0 0 100 80 500 (-3) none).outer.height) :=
  ⟨by simp, by simp,
    construction_minimums_clamped 0 0 100 80 500 (-3) none (by simp) (by simp)⟩

/-- C7: each of the four edge moves is idempotent for every engine state
and every coordinate, in or out of the valid range: calling it twice with
the same coordinate yields the same inner rectangle as calling it once. -/
theorem edge_move_idempotent (b : ClampBox) (c : ℚ) :
    ((b.moveLeftLine c).moveLeftLine c).inner = (b.moveLeftLine c).inner ∧
    ((b.moveTopLine c).moveTopLine c).inner = (b.moveTopLine c).inner ∧
    ((b.moveRightLine c).moveRightLine c).inner = (b.moveRightLine c).inner ∧
    ((b.moveBottomLine c).moveBottomLine c).inner = (b.moveBottomLine c).inner := by
  refine ⟨?_, ?_, ?_, ?_⟩ <;>
    simp [ClampBox.moveLeftLine, ClampBox.moveTopLine, ClampBox.moveRightLine,
      ClampBox.moveBottomLine]

/-- C10 (implicit): constructing either engine without an offset
descriptor yields an inner rectangle structurally equal to the outer
rectangle, both equal to the given bounds. -/
theorem create_no_offset_full_box (l t r bt mw mh : ℚ) :
    (ClampBox.create l t r bt mw mh none).inner = ⟨l, t, r, bt⟩ ∧
    (ClampBox.create l t r bt mw mh none).outer = ⟨l, t, r, bt⟩ ∧
    (NestedBox.create l t r bt mw mh none).inner = ⟨l, t, r, bt⟩ ∧
    (NestedBox.create l t r bt mw mh none).outer = ⟨l, t, r, bt⟩ :=
  ⟨rfl, rfl, rfl, rfl⟩

/-- C4: each edge move sets its edge to the argument clamped into the
range the spec states (built from the current opposite edge), and — in
any state with non-negative minimums where the moved-toward bound lies on
the correct side of the opposite edge, as holds in every reachable
state — the move never inverts the box. -/
theorem edge_move_clamp_spec (b : ClampBox) (x y : ℚ)
    (hmw : 0 ≤ b.minWidth) (hmh : 0 ≤ b.minHeight)
    (hol : b.outer.left ≤ b.inner.right) (hor : b.inner.left ≤ b.outer.right)
    (hot : b.outer.top ≤ b.inner.bottom) (hob : b.inner.top ≤ b.outer.bottom) :
    (b.moveLeftLine x).inner.left =
      clamp b.outer.left (max b.outer.left (b.inner.right - b.minWidth)) x ∧
    (b.moveLeftLine x).inner.right = b.inner.right ∧
    (b.moveLeftLine x).inner.left ≤ (b.moveLeftLine x).inner.right ∧
    (b.moveTopLine y).inner.top =
      clamp b.outer.top (max b.outer.top (b.inner.bottom - b.minHeight)) y ∧
    (b.moveTopLine y).inner.top ≤ (b.moveTopLine y).inner.bottom ∧
    (b.moveRightLine x).inner.right =
      clamp (min b.outer.right (b.inner.left + b.minWidth)) b.outer.right x ∧
    (b.moveRightLine x).inner.left ≤ (b.moveRightLine x).inner.right ∧
    (b.moveBottomLine y).inner.bottom =
      clamp (min b.outer.bottom (b.inner.top + b.minHeight)) b.outer.bottom y ∧
    (b.moveBottomLine y).inner.top ≤ (b.moveBottomLine y).inner.bottom := by
  refine ⟨rfl, rfl, ?_, rfl, ?_, rfl, ?_, rfl, ?_⟩
  · have hc := clamp_le b.outer.left (max b.outer.left (b.inner.right - b.minWidth)) x
      (le_max_left _ _)
    have h2 : max b.outer.left (b.inner.right - b.minWidth) ≤ b.inner.right :=
      max_le hol (by linarith)
    simp only [ClampBox.moveLeftLine]
    linarith
  · have hc := clamp_le b.outer.top (max b.outer.top (b.inner.bottom - b.minHeight)) y
      (le_max_left _ _)
    have h2 : max b.outer.top (b.inner.bottom - b.minHeight) ≤ b.inner.bottom :=
      max_le hot (by linarith)
    simp only [ClampBox.moveTopLine]
    linarith
  · have hc := le_clamp (min b.outer.right (b.inner.left + b.minWidth)) b.outer.right x
    have h2 : b.inner.left ≤ min b.outer.right (b.inner.left + b.minWidth) :=
      le_min hor (by linarith)
    simp only [ClampBox.moveRightLine]
    linarith
  · have hc := le_clamp (min b.outer.bottom (b.inner.top + b.minHeight)) b.outer.bottom y
    have h2 : b.inner.top ≤ min b.outer.bottom (b.inner.top + b.minHeight) :=
      le_min hob (by linarith)
    simp only [ClampBox.moveBottomLine]
    linarith

theorem edge_move_clamp_spec_witness :
    (0 : ℚ) ≤ (ClampBox.create 0 0 100 80 10 10 none).minWidth ∧
    (0 : ℚ) ≤ (ClampBox.create 0 0 100 80 10 10 none).minHeight ∧
    ((ClampBox.create 0 0 100 80 10 10 none).moveLeftLine 250).inner.left ≤
      ((ClampBox.create 0 0 100 80 10 10 none).moveLeftLine 250).inner.right := by
  have h := edge_move_clamp_spec (ClampBox.create 0 0 100 80 10 10 none) 250 (-40)
    (by simp [ClampBox.create, clamp]) (by simp [ClampBox.create, clamp])
    (by simp [ClampBox.create]) (by simp [ClampBox.create])
    (by simp [ClampBox.create]) (by simp [ClampBox.create])
  exact ⟨by simp [ClampBox.create, clamp], by simp [ClampBox.create, clamp], h.2.2.1⟩

lemma moveX_inner_left (b : ClampBox) (dx : ℚ) :
    (b.moveX dx).inner.left = b.inner.left + b.clampDX dx := by
  simp only [ClampBox.moveX]
  split_ifs with h
  · rw [h, add_zero]
  · rfl

lemma moveX_inner_right (b : ClampBox) (dx : ℚ) :
    (b.moveX dx).inner.right = b.inner.right + b.clampDX dx := by
  simp only [ClampBox.moveX]
  split_ifs with h
  · rw [h, add_zero]
  · rfl

lemma moveY_inner_top (b : ClampBox) (dy : ℚ) :
    (b.moveY dy).inner.top = b.inner.top + b.clampDY dy := by
  simp only [ClampBox.moveY]
  split_ifs with h
  · rw [h, add_zero]
  · rfl

lemma moveY_inner_bottom (b : ClampBox) (dy : ℚ) :
    (b.moveY dy).inner.bottom = b.inner.bottom + b.clampDY dy := by
  simp only [ClampBox.moveY]
  split_ifs with h
  · rw [h, add_zero]
  · rfl

lemma abs_clampDX_le (b : ClampBox) (dx : ℚ) (h1 : b.outer.left ≤ b.inner.left)
    (h2 : b.inner.right ≤ b.outer.right) : |b.clampDX dx| ≤ |dx| := by
  unfold ClampBox.clampDX
  split_ifs with hpos hneg
  · have ha : 0 ≤ min dx (b.outer.right - b.inner.right) := le_min hpos.le (by linarith)
    rw [abs_of_nonneg ha, abs_of_nonneg hpos.le]
    exact min_le_left _ _
  · have ha : max dx (b.outer.left - b.inner.left) ≤ 0 := max_le hneg.le (by linarith)
    rw [abs_of_nonpos ha, abs_of_nonpos hneg.le]
    have := le_max_left dx (b.outer.left - b.inner.left)
    linarith
  · exact le_refl _

lemma clampDX_sign (b : ClampBox) (dx : ℚ) (h1 : b.outer.left ≤ b.inner.left)
    (h2 : b.inner.right ≤ b.outer.right) :
    (0 ≤ dx → 0 ≤ b.clampDX dx) ∧ (dx ≤ 0 → b.clampDX dx ≤ 0) := by
  unfold ClampBox.clampDX
  split_ifs with hpos hneg
  · exact ⟨fun _ => le_min hpos.le (by linarith), fun hd => absurd hpos (by linarith)⟩
  · refine ⟨fun hd => absurd hneg (by linarith), fun _ => max_le hneg.le (by linarith)⟩
  · exact ⟨fun hd => hd, fun hd => hd⟩

lemma abs_clampDY_le (b : ClampBox) (dy : ℚ) (h1 : b.outer.top ≤ b.inner.top)
    (h2 : b.inner.bottom ≤ b.outer.bottom) : |b.clampDY dy| ≤ |dy| := by
  unfold ClampBox.clampDY
  split_ifs with hpos hneg
  · have ha : 0 ≤ min dy (b.outer.bottom - b.inner.bottom) := le_min hpos.le (by linarith)
    rw [abs_of_nonneg ha, abs_of_nonneg hpos.le]
    exact min_le_left _ _
  · have ha : max dy (b.outer.top - b.inner.top) ≤ 0 := max_le hneg.le (by linarith)
    rw [abs_of_nonpos ha, abs_of_nonpos hneg.le]
    have := le_max_left dy (b.outer.top - b.inner.top)
    linarith
  · exact le_refl _

lemma clampDY_sign (b : ClampBox) (dy : ℚ) (h1 : b.outer.top ≤ b.inner.top)
    (h2 : b.inner.bottom ≤ b.outer.bottom) :
    (0 ≤ dy → 0 ≤ b.clampDY dy) ∧ (dy ≤ 0 → b.clampDY dy ≤ 0) := by
  unfold ClampBox.clampDY
  split_ifs with hpos hneg
  · exact ⟨fun _ => le_min hpos.le (by linarith), fun hd => absurd hpos (by linarith)⟩
  · refine ⟨fun hd => absurd hneg (by linarith), fun _ => max_le hneg.le (by linarith)⟩
  · exact ⟨fun hd => hd, fun hd => hd⟩

lemma clampDX_of_shifted (b : ClampBox) (dx : ℚ) (h1 : b.outer.left ≤ b.inner.left)
    (h2 : b.inner.right ≤ b.outer.right) (happ : b.clampDX dx = dx) :
    (b.moveX dx).clampDX (-dx) = -dx := by
  have hL := moveX_inner_left b dx
  have hR := moveX_inner_right b dx
  rw [happ] at hL hR
  unfold ClampBox.clampDX
  rw [hL, hR, moveX_outer]
  split_ifs with hpos hneg
  · exact min_eq_left (by linarith)
  · exact max_eq_left (by linarith)
  · rfl

lemma clampDY_of_shifted (b : ClampBox) (dy : ℚ) (h1 : b.outer.top ≤ b.inner.top)
    (h2 : b.inner.bottom ≤ b.outer.bottom) (happ : b.clampDY dy = dy) :
    (b.moveY dy).clampDY (-dy) = -dy := by
  have hT := moveY_inner_top b dy
  have hB := moveY_inner_bottom b dy
  rw [happ] at hT hB
  unfold ClampBox.clampDY
  rw [hT, hB, moveY_outer]
  split_ifs with hpos hneg
  · exact min_eq_left (by linarith)
  · exact max_eq_left (by linarith)
  · rfl

/-- C6: in any contained state, the delta actually applied by `moveX(dx)`
(the change of `inner.left`, which equals the change of `inner.right`) has
magnitude at most `|dx|` and the sign of `dx` (zero when fully clamped),
and whenever the first call applied `dx` unclamped, `moveX(dx)` followed
by `moveX(-dx)` restores both vertical edges; likewise for `moveY`. -/
theorem translation_clamp_roundtrip (b : ClampBox) (dx dy : ℚ)
    (h1 : b.outer.left ≤ b.inner.left) (h2 : b.inner.right ≤ b.outer.right)
    (h3 : b.outer.top ≤ b.inner.top) (h4 : b.inner.bottom ≤ b.outer.bottom) :
    |(b.moveX dx).inner.left - b.inner.left| ≤ |dx| ∧
    (0 ≤ dx → 0 ≤ (b.moveX dx).inner.left - b.inner.left) ∧
    (dx ≤ 0 → (b.moveX dx).inner.left - b.inner.left ≤ 0) ∧
    (b.moveX dx).inner.right - b.inner.right = (b.moveX dx).inner.left - b.inner.left ∧
    ((b.moveX dx).inner.left - b.inner.left = dx →
      ((b.moveX dx).moveX (-dx)).inner.left = b.inner.left ∧
      ((b.moveX dx).moveX (-dx)).inner.right = b.inner.right) ∧
    |(b.moveY dy).inner.top - b.inner.top| ≤ |dy| ∧
    (0 ≤ dy → 0 ≤ (b.moveY dy).inner.top - b.inner.top) ∧
    (dy ≤ 0 → (b.moveY dy).inner.top - b.inner.top ≤ 0) ∧
    (b.moveY dy).inner.bottom - b.inner.bottom = (b.moveY dy).inner.top - b.inner.top ∧
    ((b.moveY dy).inner.top - b.inner.top = dy →
      ((b.moveY dy).moveY (-dy)).inner.top = b.inner.top ∧
      ((b.moveY dy).moveY (-dy)).inner.bottom = b.inner.bottom) := by
  have hdL : (b.moveX dx).inner.left - b.inner.left = b.clampDX dx := by
    rw [moveX_inner_left]; ring
  have hdR : (b.moveX dx).inner.right - b.inner.right = b.clampDX dx := by
    rw [moveX_inner_right]; ring
  have hdT : (b.moveY dy).inner.top - b.inner.top = b.clampDY dy := by
    rw [moveY_inner_top]; ring
  have hdB : (b.moveY dy).inner.bottom - b.inner.bottom = b.clampDY dy := by
    rw [moveY_inner_bottom]; ring
  obtain ⟨hsx1, hsx2⟩ := clampDX_sign b dx h1 h2
  obtain ⟨hsy1, hsy2⟩ := clampDY_sign b dy h3 h4
  refine ⟨?_, ?_, ?_, ?_, ?_, ?_, ?_, ?_, ?_, ?_⟩
  · rw [hdL]; exact abs_clampDX_le b dx h1 h2
  · intro h; rw [hdL]; exact hsx1 h
  · intro h; rw [hdL]; exact hsx2 h
  · rw [hdL, hdR]
  · intro happ
    rw [hdL] at happ
    have hshift := clampDX_of_shifted b dx h1 h2 happ
    constructor
    · rw [moveX_inner_left (b.moveX dx) (-dx), hshift, moveX_inner_left, happ]; ring
    · rw [moveX_inner_right (b.moveX dx) (-dx), hshift, moveX_inner_right, happ]; ring
  · rw [hdT]; exact abs_clampDY_le b dy h3 h4
  · intro h; rw [hdT]; exact hsy1 h
  · intro h; rw [hdT]; exact hsy2 h
  · rw [hdT, hdB]
  · intro happ
    rw [hdT] at happ
    have hshift := clampDY_of_shifted b dy h3 h4 happ
    constructor
    · rw [moveY_inner_top (b.moveY dy) (-dy), hshift, moveY_inner_top, happ]; ring
    · rw [moveY_inner_bottom (b.moveY dy) (-dy), hshift, moveY_inner_bottom, happ]; ring

theorem translation_clamp_roundtrip_witness :
    ((ClampBox.create 0 0 100 80 0 0 none).outer.left ≤
      (ClampBox.create 0 0 100 80 0 0 none).inner.left) ∧
    ((ClampBox.create 0 0 100 80 0 0 none).inner.right ≤
      (ClampBox.create 0 0 100 80 0 0 none).outer.right) ∧
    |((ClampBox.create 0 0 100 80 0 0 none).moveX 250).inner.left -
      (ClampBox.create 0 0 100 80 0 0 none).inner.left| ≤ |(250 : ℚ)| := by
  have h := translation_clamp_roundtrip (ClampBox.create 0 0 100 80 0 0 none) 250 7
    (by simp [ClampBox.create]) (by simp [ClampBox.create])
    (by simp [ClampBox.create]) (by simp [ClampBox.create])
  exact ⟨by simp [ClampBox.create], by simp [ClampBox.create], h.1⟩

lemma jsRound_eq (x : ℚ) : jsRound x = ⌊x + 1/2⌋ := by
  rw [jsRound, Rat.floor_def', ← Rat.floor_def]

/-- C5: constructing the engine with outer box `{0,0,200,100}`, zero
minimums and offset `{left:25, top:25, width:50, height:50, unit:"%"}`
yields `inner = {50, 25, 150, 75}`. -/
theorem offset_resolution_example :
    (ClampBox.create 0 0 200 100 0 0 (some ⟨25, 25, 50, 50, some CropUnit.percent⟩)).inner =
      ⟨50, 25, 150, 75⟩ := by
  simp only [ClampBox.create, resolveOffsetPart, ClampBox.moveLeftLine, ClampBox.moveTopLine,
    ClampBox.moveRightLine, ClampBox.moveBottomLine, DataRect.width, DataRect.height, jsRound_eq]
  norm_num [clamp, Int.floor_eq_iff]

/-- A resize-handle direction (source `IDirection`, declared in the
repository's `types` module which is not among the provided sources).
Modelled from the spec: eight compass directions, the four corners
composed of two edge names, matched by edge-name containment. -/
inductive IDirection
  | top
  | bottom
  | left
  | right
  | leftTop
  | leftBottom
  | rightTop
  | rightBottom
deriving DecidableEq, Repr

/-- `target.includes("left")` on the direction token. -/
def IDirection.hasLeft : IDirection → Bool
  | .left | .leftTop | .leftBottom => true
  | _ => false

/-- `target.includes("right")` on the direction token. -/
def IDirection.hasRight : IDirection → Bool
  | .right | .rightTop | .rightBottom => true
  | _ => false

/-- `target.includes("top")` on the direction token. -/
def IDirection.hasTop : IDirection → Bool
  | .top | .leftTop | .rightTop => true
  | _ => false

/-- `target.includes("bottom")` on the direction token. -/
def IDirection.hasBottom : IDirection → Bool
  | .bottom | .leftBottom | .rightBottom => true
  | _ => false

/-- A drag target: a handle direction or the whole area.  The idle state
(source: empty string) is `Option.none` at the use sites. -/
inductive DragTarget
  | dir (d : IDirection)
  | area
deriving DecidableEq, Repr

/-- A lifecycle event published on `events$` (topics `"start"`, `"move"`,
`"end"`). -/
inductive Notif
  | start (t : DragTarget)
  | move (box : DataBox)
  | ended (box : DataBox)
deriving DecidableEq, Repr

def Notif.isEnded : Notif → Bool
  | .ended _ => true
  | _ => false

def Notif.isMove : Notif → Bool
  | .move _ => true
  | _ => false

/-- State of the `Movement` class (drag state machine): last seen absolute
pointer coordinates, the active target (`""` = `none`), the nested-box
engine, and the moved flag. -/
structure Movement where
  lastPageX : ℚ
  lastPageY : ℚ
  target : Option DragTarget
  nBox : ClampBox
  moved : Bool
deriving DecidableEq, Repr

/-- `Movement.onStart`: returns unchanged if a drag is already active
(`if (this.target) return;`), otherwise records the target and the
starting coordinates.  (The `type` argument only selects which DOM
listeners get attached; listener dispatch is modelled by `Movement.step`.) -/
def Movement.onStart (m : Movement) (target : DragTarget) (pageX pageY : ℚ) : Movement :=
  if m.target.isSome then m
  else { m with target := some target, lastPageX := pageX, lastPageY := pageY }

/-- `Movement.onMove`: compute the delta from the last position, update
the last position, dispatch to the engine (edge moves get the absolute
coordinate, `"area"` gets the delta), emit `"start"` on the first move of
the gesture, then emit `"move"` with a snapshot. -/
def Movement.onMove (m : Movement) (t : DragTarget) (pageX pageY : ℚ) :
    Movement × List Notif :=
  let dx := pageX - m.lastPageX
  let dy := pageY - m.lastPageY
  let b1 :=
    match t with
    | .area => (m.nBox.moveX dx).moveY dy
    | .dir d =>
      let c1 := if d.hasLeft then m.nBox.moveLeftLine pageX else m.nBox
      let c2 := if d.hasRight then c1.moveRightLine pageX else c1
      let c3 := if d.hasTop then c2.moveTopLine pageY else c2
      if d.hasBottom then c3.moveBottomLine pageY else c3
  ({ m with lastPageX := pageX, lastPageY := pageY, nBox := b1, moved := true },
    (if m.moved then [] else [Notif.start t]) ++ [Notif.move b1.toDataBox])

/-- `Movement.onEnd`: emit `"end"` with a snapshot if any move occurred,
then clear the moved flag and the target. -/
def Movement.onEnd (m : Movement) : Movement × List Notif :=
  ({ m with moved := false, target := none },
    if m.moved then [Notif.ended m.nBox.toDataBox] else [])

/-- An input event reaching the touch-gesture listeners (plus the
pointer-down forwarded by a handle/area element). -/
inductive TouchEvt
  | startDrag (t : DragTarget) (x y : ℚ)
  | touchstart (touches : Nat)
  | touchmove (touches : Nat) (x y : ℚ)
  | touchendEvt
deriving DecidableEq, Repr

def TouchEvt.isStartDrag : TouchEvt → Bool
  | .startDrag _ _ _ => true
  | _ => false

/-- One step of the drag state machine: the `touchstart` listener forces a
release when a second touch point appears during an active gesture, the
`touchmove` listener dispatches single-touch moves of an active gesture,
and `touchend`/`touchcancel` release an active gesture. -/
def Movement.step (m : Movement) : TouchEvt → Movement × List Notif
  | .startDrag t x y => (m.onStart t x y, [])
  | .touchstart n => if 1 < n ∧ m.target.isSome then m.onEnd else (m, [])
  | .touchmove n x y =>
    match m.target with
    | some t => if n = 1 then m.onMove t x y else (m, [])
    | none => (m, [])
  | .touchendEvt => if m.target.isSome then m.onEnd else (m, [])

/-- Run the state machine over a finite event sequence, concatenating the
published events. -/
def Movement.run (m : Movement) : List TouchEvt → Movement × List Notif
  | [] => (m, [])
  | e :: rest =>
    let p := m.step e
    let q := p.1.run rest
    (q.1, p.2 ++ q.2)

/-- C8: if a drag is already active, a second drag-start call is a
complete no-op — after the second call the target and recorded start
position are exactly what they were after the first call (which, from
idle, records the given target and coordinates). -/
theorem single_active_gesture (m : Movement) (t1 t2 : DragTarget) (x1 y1 x2 y2 : ℚ)
    (h : m.target = none) :
    (m.onStart t1 x1 y1).target = some t1 ∧
    (m.onStart t1 x1 y1).lastPageX = x1 ∧
    (m.onStart t1 x1 y1).lastPageY = y1 ∧
    (m.onStart t1 x1 y1).onStart t2 x2 y2 = m.onStart t1 x1 y1 := by
  have h1 : m.onStart t1 x1 y1 =
      { m with target := some t1, lastPageX := x1, lastPageY := y1 } := by
    simp [Movement.onStart, h]
  rw [h1]
  refine ⟨rfl, rfl, rfl, ?_⟩
  simp [Movement.onStart]

theorem single_active_gesture_witness :
    ((⟨0, 0, none, ClampBox.create 0 0 10 10 0 0 none, false⟩ : Movement).onStart
        DragTarget.area 3 4).target = some DragTarget.area ∧
    ((⟨0, 0, none, ClampBox.create 0 0 10 10 0 0 none, false⟩ : Movement).onStart
        DragTarget.area 3 4).lastPageX = 3 ∧
    ((⟨0, 0, none, ClampBox.create 0 0 10 10 0 0 none, false⟩ : Movement).onStart
        DragTarget.area 3 4).lastPageY = 4 ∧
    (((⟨0, 0, none, ClampBox.create 0 0 10 10 0 0 none, false⟩ : Movement).onStart
        DragTarget.area 3 4).onStart (DragTarget.dir IDirection.left) 9 9) =
      ((⟨0, 0, none, ClampBox.create 0 0 10 10 0 0 none, false⟩ : Movement).onStart
        DragTarget.area 3 4) :=
  single_active_gesture ⟨0, 0, none, ClampBox.create 0 0 10 10 0 0 none, false⟩
    DragTarget.area (DragTarget.dir IDirection.left) 3 4 9 9 rfl

/-- C9, counterexample: in a state where a touch gesture is active but no
move has occurred yet (`moved = false`), a second touch point emits zero
`"end"` events, not exactly one as the claim states for every active
state. -/
theorem multitouch_abort_counterexample :
    (⟨0, 0, some DragTarget.area, ClampBox.create 0 0 10 10 0 0 none,
        false⟩ : Movement).target = some DragTarget.area ∧
    ¬ ((Movement.step ⟨0, 0, some DragTarget.area, ClampBox.create 0 0 10 10 0 0 none, false⟩
        (TouchEvt.touchstart 2)).2.countP Notif.isEnded = 1) := by
  constructor
  · rfl
  · simp [Movement.step, Movement.onEnd]

lemma run_idle_silent (m : Movement) (h : m.target = none) (evts : List TouchEvt)
    (hne : ∀ e ∈ evts, e.isStartDrag = false) : (m.run evts).2 = [] := by
  induction evts generalizing m with
  | nil => rfl
  | cons e rest ih =>
    have hme : m.step e = (m, []) := by
      cases e with
      | startDrag t x y =>
        exact absurd (hne _ (List.mem_cons_self _ _)) (by simp [TouchEvt.isStartDrag])
      | touchstart n => simp [Movement.step, h]
      | touchmove n x y => simp [Movement.step, h]
      | touchendEvt => simp [Movement.step, h]
    simp only [Movement.run, hme, List.nil_append]
    exact ih m h fun e' he' => hne e' (List.mem_cons_of_mem _ he')

/-- C9, amended: from any state with an active touch gesture, a second
touch point forces a release that emits exactly one `"end"` event when a
move has occurred during the gesture (and none otherwise), emits no
`"move"` events, resets the target to idle, and no further events of any
kind are emitted until a new drag-start occurs. -/
theorem multitouch_abort_amended (m : Movement) (t : DragTarget) (n : Nat)
    (h : m.target = some t) (hn : 2 ≤ n) :
    (m.step (.touchstart n)).1.target = none ∧
    (m.step (.touchstart n)).2.countP Notif.isEnded = (if m.moved then 1 else 0) ∧
    (m.step (.touchstart n)).2.countP Notif.isMove = 0 ∧
    ∀ evts, (∀ e ∈ evts, e.isStartDrag = false) →
      ((m.step (.touchstart n)).1.run evts).2 = [] := by
  have hlt : (1 : Nat) < n := by omega
  have hstep : m.step (.touchstart n) = m.onEnd := by
    simp [Movement.step, h, hlt]
  rw [hstep]
  refine ⟨rfl, ?_, ?_, ?_⟩
  · simp only [Movement.onEnd]
    cases m.moved <;> simp [Notif.isEnded]
  · simp only [Movement.onEnd]
    cases m.moved <;> simp [Notif.isMove]
  · intro evts hne
    exact run_idle_silent _ rfl evts hne

theorem multitouch_abort_amended_witness :
    (Movement.step ⟨0, 0, some DragTarget.area, ClampBox.create 0 0 10 10 0 0 none, true⟩
        (TouchEvt.touchstart 2)).1.target = none ∧
    (Movement.step ⟨0, 0, some DragTarget.area, ClampBox.create 0 0 10 10 0 0 none, true⟩
        (TouchEvt.touchstart 2)).2.countP Notif.isEnded =
      (if (⟨0, 0, some DragTarget.area, ClampBox.create 0 0 10 10 0 0 none,
          true⟩ : Movement).moved then 1 else 0) ∧
    (Movement.step ⟨0, 0, some DragTarget.area, ClampBox.create 0 0 10 10 0 0 none, true⟩
        (TouchEvt.touchstart 2)).2.countP Notif.isMove = 0 ∧
    ((Movement.step ⟨0, 0, some DragTarget.area, ClampBox.create 0 0 10 10 0 0 none, true⟩
        (TouchEvt.touchstart 2)).1.run [TouchEvt.touchmove 1 5 5]).2 = [] := by
  have h := multitouch_abort_amended
    ⟨0, 0, some DragTarget.area, ClampBox.create 0 0 10 10 0 0 none, true⟩
    DragTarget.area 2 rfl (by omega)
  exact ⟨h.1, h.2.1, h.2.2.1,
    h.2.2.2 [TouchEvt.touchmove 1 5 5] (by simp [TouchEvt.isStartDrag])⟩
